import Mathlib

set_option maxRecDepth 8000

/-!
Shallow embedding of the notebook toolbox (notebook_v1.py, notebook_v2.py).

Conventions of the embedding:
  * Python `str` values are Lean `String`s (in this Lean version a `String`
    is a wrapper around a `List Char`, matching Python's code-point view).
  * Python dynamic fields that hold values of several runtime types are
    modelled by small sum types: `ExecCount` for `execution_count` (which
    the code stores as an `int`, `None`, or the string literal
    `'execution_count'`), and `PySource` for `source` (which the code
    stores as a `list` of `str`, or — in `Markdownizer.markdownize` — as a
    plain `str`).
  * Code that can raise (IndexError from `lines[i+1]`, ValueError from
    `int('.')`) is modelled in `Option`, `none` being the raised exception.
-/

namespace Nb

/-- Runtime value stored in a cell's `execution_count` field. -/
inductive ExecCount
  | int (n : Int)
  | null
  | str (s : String)
deriving DecidableEq

/-- Runtime value stored in a cell's `source` field: a Python list of
strings, or (after `Markdownizer.markdownize`) a plain Python string. -/
inductive PySource
  | pylist (l : List String)
  | pystr (s : String)
deriving DecidableEq

/-- The cell classes of notebook_v2.py (`CodeCell(id, source, execution_count)`
and `MarkdownCell(id, source)`).  The cell classes of notebook_v1.py carry
exactly the same data (their `type` field always equals "code" resp.
"markdown" for cells built by the v1 `Notebook` constructor), so one sum
type serves both files. -/
inductive Cell
  | code (id : String) (source : PySource) (execution_count : ExecCount)
  | markdown (id : String) (source : PySource)
deriving DecidableEq

/-- `Notebook(version, cells)` from notebook_v2.py. -/
structure Notebook where
  version : String
  cells : List Cell
deriving DecidableEq

/-- The `source` attribute of a cell. -/
def Cell.source : Cell → PySource
  | .code _ s _ => s
  | .markdown _ s => s

/-- The `id` attribute of a cell. -/
def Cell.cellId : Cell → String
  | .code i _ _ => i
  | .markdown i _ => i

/-- `isinstance(cell, CodeCell)`. -/
def Cell.isCode : Cell → Bool
  | .code _ _ _ => true
  | .markdown _ _ => false

/-- `isinstance(cell, MarkdownCell)`. -/
def Cell.isMarkdown : Cell → Bool
  | .code _ _ _ => false
  | .markdown _ _ => true

/-- The `execution_count` attribute (code cells only). -/
def Cell.execCount : Cell → Option ExecCount
  | .code _ _ e => some e
  | .markdown _ _ => none

/-! ### Python string builtins used by the source -/

/-- One step of `str.split('\n')`, processing one character (from the
right): a newline opens a fresh segment, any other character is prepended
to the current first segment. -/
def splitStep (c : Char) (acc : List (List Char)) : List (List Char) :=
  if c = '\n' then [] :: acc
  else
    match acc with
    | [] => [[c]]
    | h :: t => (c :: h) :: t

/-- Character-list core of `str.split('\n')`. -/
def splitChars (cs : List Char) : List (List Char) :=
  cs.foldr splitStep [[]]

/-- Python `data.split('\n')`: always returns at least one segment
(`"".split('\n') == ['']`), and a trailing newline yields a final `''`. -/
def pySplitLines (s : String) : List String :=
  (splitChars s.data).map (fun l => String.mk l)

/-- Python `s[2:]` (clamping, code-point based). -/
def pyTail2 (s : String) : String :=
  String.mk (s.data.drop 2)

/-- Python `sep.join(xs)` for a list of strings. -/
def pyJoin (sep : String) : List String → String
  | [] => ""
  | [x] => x
  | x :: y :: rest => x ++ sep ++ pyJoin sep (y :: rest)

/-- Plain concatenation of a list of strings (`''.join` / repeated `+=`). -/
def joinAll : List String → String
  | [] => ""
  | x :: rest => x ++ joinAll rest

/-- Iterating a `source` field as Python does: over a list it yields the
elements, over a plain string it yields one-character strings. -/
def PySource.toStrList : PySource → List String
  | .pylist l => l
  | .pystr s => s.data.map (fun c => String.mk [c])

/-! ### PyPercentLoader.load (notebook_v2.py, lines 313-344)

The Python loop

    lines = data.split('\n'); i = 0
    while i+1 < len(lines):
        if lines[i] == '# %% [markdown]': ...inner loop...
        elif lines[i] == '# %%': ...inner loop...
        i += 1

with inner loop `while lines[i+1] != '' and i+1 < len(lines): i += 1;
source.append(lines[i][2:])` is a left-to-right scan with one line of
lookahead.  Note the faithfully preserved quirks of the source:
  * a header on the very last split line is never recognised (the outer
    guard `i+1 < len(lines)` fails there);
  * inside a block the condition reads `lines[i+1]` before checking the
    bound, so running past the last line raises IndexError (`none` here);
  * body lines of BOTH kinds of blocks get their first two characters
    stripped (`lines[i][2:]`);
  * every parsed cell gets the literal id `'id'`, and parsed code cells
    get the literal string `'execution_count'` as execution count.
-/

/-- Scanner state: at top level looking for a header, or inside a block
with the body lines collected so far (most recent first). -/
inductive Mode
  | top
  | block (isMd : Bool) (acc : List String)

/-- Cell constructed by PyPercentLoader for a finished block. -/
def mkParsedCell (isMd : Bool) (src : List String) : Cell :=
  if isMd then .markdown "id" (.pylist src)
  else .code "id" (.pylist src) (.str "execution_count")

/-- The scan loop of `PyPercentLoader.load` over the split lines. -/
def run : Mode → List String → Option (List Cell)
  | .top, [] => some []
  | .top, [_] => some []
  | .top, l0 :: l1 :: rest =>
    if l0 = "# %% [markdown]" then run (.block true []) (l1 :: rest)
    else if l0 = "# %%" then run (.block false []) (l1 :: rest)
    else run .top (l1 :: rest)
  | .block _ _, [] => none
  | .block isMd acc, h :: rest =>
    if h = "" then (fun cs => mkParsedCell isMd acc.reverse :: cs) <$> run .top rest
    else run (.block isMd (pyTail2 h :: acc)) rest

/-- `PyPercentLoader(filename, version).load()`, with the file contents
passed directly as `data`. -/
def pyPercentLoad (data : String) (version : String) : Option Notebook :=
  (fun cs => Notebook.mk version cs) <$> run .top (pySplitLines data)

/-! ### PyPercentSerializer.to_py_percent (notebook_v2.py, lines 34-58)

For each cell the loop appends a header, the joined source and a final
newline; every cell other than the first is preceded by one extra `"\n"`.
(The Python test `cell == self.notebook.cells[0]` is an identity check —
the cell classes define no `__eq__` — so on a list of distinct cell
objects it holds exactly for the iteration that visits position 0, which
is what the positional split below expresses.)  Markdown sources are
joined with `'# '.join`, code sources with `''.join`. -/

/-- The text contributed by one cell of `to_py_percent`, without the
leading `"\n"` that separates it from the previous block. -/
def cellBlock : Cell → String
  | .markdown _ src => "# %% [markdown]\n# " ++ pyJoin "# " src.toStrList ++ "\n"
  | .code _ src _ => "# %%\n" ++ pyJoin "" src.toStrList ++ "\n"

/-- `PyPercentSerializer(notebook).to_py_percent()`. -/
def to_py_percent (nb : Notebook) : String :=
  match nb.cells with
  | [] => ""
  | c :: rest => cellBlock c ++ joinAll (rest.map (fun x => "\n" ++ cellBlock x))

/-! ### Markdownizer.markdownize (notebook_v2.py, lines 239-253) -/

/-- The constant assigned to `new_source` in `markdownize`: the template
is a plain triple-quoted string, NOT an f-string, so the braces and the
text `cell.source` appear literally and the indentation of the source
file (16 spaces) is part of the value. -/
def markdownizeTemplate : String :=
  "python\n                \x7bcell.source\x7d\n                "

/-- `Markdownizer(notebook).markdownize()`: every code cell is replaced
by a `MarkdownCell` with the same id whose source is the constant
template string; other cells pass through. -/
def markdownize (nb : Notebook) : Notebook :=
  ⟨nb.version,
    nb.cells.map (fun c =>
      match c with
      | .code i _ _ => .markdown i (.pystr markdownizeTemplate)
      | m => m)⟩

/-! ### MarkdownLesser.remove_markdown_cells (notebook_v2.py, lines 273-284) -/

/-- `MarkdownLesser(notebook).remove_markdown_cells()`: keep exactly the
code cells, in order, with the same version. -/
def remove_markdown_cells (nb : Notebook) : Notebook :=
  ⟨nb.version, nb.cells.filter Cell.isCode⟩

/-! ### Serializer.serialize (notebook_v1.py, lines 252-270) -/

/-- One cell of the generic key-value representation produced by
`Serializer.serialize`.  The `cell_type` string is the cell's `type`
attribute, which for cells built by the v1 `Notebook` constructor is
"code" resp. "markdown"; `metadata` is always `{}` (modelled as an empty
association list) and code cells carry `outputs = []`. -/
inductive CellJson
  | code (cell_type : String) (execution_count : ExecCount) (id : String)
      (metadata : List (String × String)) (outputs : List String)
      (source : PySource)
  | markdown (cell_type : String) (id : String)
      (metadata : List (String × String)) (source : PySource)
deriving DecidableEq

/-- Python `s[i]` on a string: the i-th code point, IndexError if out of
range. -/
def pyStrIndex (s : String) (i : Nat) : Option Char :=
  s.data.get? i

/-- Python `int(c)` on a one-character string: its value if `c` is a
decimal digit, ValueError (`none`) otherwise. -/
def pyIntOfChar (c : Char) : Option Int :=
  if c.isDigit then some ((c.toNat : Int) - 48) else none

/-- The dictionary built for one cell inside `serialize`. -/
def cellToJson : Cell → CellJson
  | .code i src cnt => .code "code" cnt i [] [] src
  | .markdown i src => .markdown "markdown" i [] src

/-- The full key-value representation: the cell list plus
`dic['nbformat'] = int(version[0])` and
`dic['nbformat_minor'] = int(version[2])` — note the CHARACTER indexing
of the version string, not a split on `'.'`. -/
structure NbJson where
  cells : List CellJson
  metadata : List (String × String)
  nbformat : Int
  nbformat_minor : Int
deriving DecidableEq

/-- `Serializer(notebook).serialize()`; `none` models the ValueError /
IndexError raised while converting the version characters. -/
def serialize (nb : Notebook) : Option NbJson := do
  let c0 ← pyStrIndex nb.version 0
  let n ← pyIntOfChar c0
  let c2 ← pyStrIndex nb.version 2
  let m ← pyIntOfChar c2
  some ⟨nb.cells.map cellToJson, [], n, m⟩

/-! ### Outliner.outline (notebook_v1.py, lines 317-343)

Quirks preserved from the source: pieces after a multi-line source's
connectors carry no "\n" of their own (the source lines are expected to
end in "\n" themselves); the single-line markdown branch appends "\n"
but the single-line code branch does not; and for code cells the
interior loop runs `range(1, len(source))`, so the LAST source line is
emitted twice (once with `│`, once with `└`).  `source[0]` on an empty
source raises IndexError (`none`). -/

/-- Python `str(x)` for the values an `execution_count` can hold. -/
def pyStrOfExecCount : ExecCount → String
  | .int n => toString n
  | .null => "None"
  | .str s => s

/-- Text contributed to the outline by one cell (including the leading
`"\n"` before its `└─▶` header). -/
def cellOutline : Cell → Option String
  | .markdown i src =>
    let L := src.toStrList
    let header := "\n└─▶ Markdown cell #" ++ i ++ "\n"
    match L with
    | [] => none
    | [x] => some (header ++ "    | " ++ x ++ "\n")
    | x :: y :: rest =>
      some (header ++ "    ┌  " ++ x
        ++ joinAll ((y :: rest).dropLast.map (fun z => "    │  " ++ z))
        ++ "    └  " ++ (y :: rest).getLastD "")
  | .code i src cnt =>
    let L := src.toStrList
    let header := "\n└─▶ Code cell #" ++ i ++ " (" ++ pyStrOfExecCount cnt ++ ")\n"
    match L with
    | [] => none
    | [x] => some (header ++ "    | " ++ x)
    | x :: y :: rest =>
      some (header ++ "    ┌  " ++ x
        ++ joinAll ((y :: rest).map (fun z => "    │  " ++ z))
        ++ "    └  " ++ (y :: rest).getLastD "")

/-- `Outliner(notebook).outline()`. -/
def outline (nb : Notebook) : Option String :=
  nb.cells.foldlM (fun acc c => (fun s => acc ++ s) <$> cellOutline c)
    ("Jupyter Notebook v" ++ nb.version)

/-! ### Definitions taken from the spec's words (for refinement claims) -/

/-- Whether an `execution_count` value is "an integer or the documented
null/unexecuted sentinel" in the sense of the spec. -/
def ExecCount.isIntOrNull : ExecCount → Bool
  | .int _ => true
  | .null => true
  | .str _ => false

/-- A cell whose `source` is a non-empty Python list of strings (the only
shape for which the spec's per-line serialization description applies). -/
def srcOkB (c : Cell) : Bool :=
  match c.source with
  | .pylist (_ :: _) => true
  | _ => false

/-- Encode a list of terminator-free logical lines in the convention the
notebook JSON files use (and which `to_py_percent` relies on): every line
except the last carries its own trailing newline. -/
def encodeLines : List String → List String
  | [] => []
  | [x] => [x]
  | x :: y :: rest => (x ++ "\n") :: encodeLines (y :: rest)

/-- Apply `encodeLines` to a cell's source (list-shaped sources only). -/
def encodeCell : Cell → Cell
  | .code i (.pylist l) e => .code i (.pylist (encodeLines l)) e
  | .markdown i (.pylist l) => .markdown i (.pylist (encodeLines l))
  | c => c

/-- Modelled from the spec, section 4.3 (serialization direction): the
lines of one cell's block — the header `# %% [markdown]` or `# %%`, then
each (terminator-free) source line, markdown lines prefixed with `# `,
code lines unprefixed. -/
def specBlockLines : Cell → List String
  | .markdown _ src => "# %% [markdown]" :: src.toStrList.map (fun s => "# " ++ s)
  | .code _ src _ => "# %%" :: src.toStrList

/-- Modelled from the spec, section 4.3: cell blocks joined so that
exactly one blank line separates consecutive blocks, no blank line before
the first header, and the last cell's content followed only by the
format's natural final newline. -/
def specRender (nb : Notebook) : String :=
  pyJoin "\n\n" (nb.cells.map (fun c => pyJoin "\n" (specBlockLines c))) ++ "\n"

end Nb


namespace Nb

/-! ### Helper lemmas about the string model -/

theorem string_eq_of_data {a b : String} (h : a.data = b.data) : a = b := by
  cases a
  cases b
  exact congrArg String.mk h

theorem string_data_append (a b : String) : (a ++ b).data = a.data ++ b.data := by
  cases a
  cases b
  rfl

theorem string_append_assoc (a b c : String) : a ++ b ++ c = a ++ (b ++ c) := by
  apply string_eq_of_data
  simp only [string_data_append, List.append_assoc]

theorem string_append_empty (a : String) : a ++ "" = a := by
  apply string_eq_of_data
  rw [string_data_append]
  change a.data ++ [] = a.data
  exact List.append_nil _

end Nb

namespace Nb

/-! ### Claim theorems -/

/-- C1: the percent-format round-trip fails on the code.  Serializing the
one-code-cell document `print("Hello world!")`, then re-parsing, yields a
cell whose source is `int("Hello world!")` — the loader strips the first
two characters of every code body line — so even up to ids and execution
counts the source content is not preserved, and serializing the re-parsed
document returns a different text than the first serialization. -/
theorem c1_roundtrip_fails :
    to_py_percent ⟨"4.5",
        [Cell.code "b777420a" (.pylist ["print(\"Hello world!\")"]) (.int 1)]⟩ =
      "# %%\nprint(\"Hello world!\")\n" ∧
    pyPercentLoad "# %%\nprint(\"Hello world!\")\n" "4.5" =
      some ⟨"4.5",
        [Cell.code "id" (.pylist ["int(\"Hello world!\")"]) (.str "execution_count")]⟩ ∧
    (Cell.code "id" (.pylist ["int(\"Hello world!\")"]) (.str "execution_count")).source ≠
      (Cell.code "b777420a" (.pylist ["print(\"Hello world!\")"]) (.int 1)).source ∧
    to_py_percent ⟨"4.5",
        [Cell.code "id" (.pylist ["int(\"Hello world!\")"]) (.str "execution_count")]⟩ ≠
      "# %%\nprint(\"Hello world!\")\n" :=
  ⟨by decide, by decide, by decide, by decide⟩

/-- C2: code block body lines are NOT taken verbatim: parsing the code
block with body lines `abcdef` and `ghi` reconstructs the sources `cdef`
and `i`, each with its first two characters stripped. -/
theorem c2_code_body_not_verbatim :
    pyPercentLoad "# %%\nabcdef\nghi\n" "4.5" =
      some ⟨"4.5", [Cell.code "id" (.pylist ["cdef", "i"]) (.str "execution_count")]⟩ ∧
    (["cdef", "i"] : List String) ≠ ["abcdef", "ghi"] :=
  ⟨by decide, by decide⟩

/-- C3 counterexample: on input whose first line `hello` is non-blank and
not a header, the parse does NOT fail — it silently skips the line and
returns the Document built from the remaining recognized content. -/
theorem c3_counterexample_silent_skip :
    pyPercentLoad "hello\n# %%\nabcd\n" "4.5" =
      some ⟨"4.5", [Cell.code "id" (.pylist ["cd"]) (.str "execution_count")]⟩ := by
  decide

/-- C4 counterexample: when the input does not end with a newline and a
block body is still open at the last line, the parse does NOT terminate
normally: the loader reads `lines[i+1]` past the end and raises
IndexError (modelled as `none`). -/
theorem c4_counterexample_eoi_overrun :
    pyPercentLoad "# %%\nprint(1)" "4.5" = none := by
  decide

/-- C5 counterexample: for the Document with one markdown cell whose
source lines are the terminator-free `a` and `b`, `'# '.join` produces
`# a# b` on a single physical line, so the serialization is not the
claimed per-line layout (`specRender`, which puts each source line on its
own `# `-prefixed line). -/
theorem c5_counterexample_lines_merged :
    to_py_percent ⟨"4.5", [Cell.markdown "a1" (.pylist ["a", "b"])]⟩ =
      "# %% [markdown]\n# a# b\n" ∧
    to_py_percent ⟨"4.5", [Cell.markdown "a1" (.pylist ["a", "b"])]⟩ ≠
      specRender ⟨"4.5", [Cell.markdown "a1" (.pylist ["a", "b"])]⟩ :=
  ⟨by decide, by decide⟩

/-- C6: every code cell reconstructed by the percent parser carries the
Python string literal `'execution_count'` as its execution count, which
is neither an integer nor a null/unexecuted sentinel. -/
theorem c6_execution_count_string_literal :
    (pyPercentLoad "# %%\nx = 1\n" "4.5").map (fun nb => nb.cells.map Cell.execCount) =
      some [some (ExecCount.str "execution_count")] ∧
    ExecCount.isIntOrNull (ExecCount.str "execution_count") = false :=
  ⟨by decide, rfl⟩

/-- C7: `Serializer.serialize` does not split the version on `.` — it
converts the characters at positions 0 and 2.  For version `10.23` the
character at position 2 is `.`, `int('.')` raises ValueError, and the
serialization fails instead of returning nbformat 10 / nbformat_minor 23. -/
theorem c7_version_char_indexing :
    pyStrIndex "10.23" 2 = some '.' ∧
    pyIntOfChar '.' = none ∧
    serialize ⟨"10.23", [Cell.code "b777420a" (.pylist ["print(1)"]) (.int 1)]⟩ = none :=
  ⟨by decide, by decide, by decide⟩

/-- C8: `markdownize` replaces every code cell's source by one constant
template string (the triple-quoted literal is not an f-string, so
`\x7bcell.source\x7d` appears verbatim and there are no fences): the
original code is lost, as shown by two documents with different code
sources mapping to identical markdownized sources. -/
theorem c8_markdownize_constant_template :
    markdownize ⟨"4.5",
        [Cell.markdown "a9541506"
            (.pylist ["Hello world!\n", "============\n", "Print `Hello world!`:"]),
          Cell.code "b777420a" (.pylist ["print(\"Hello world!\")"]) (.int 1)]⟩ =
      ⟨"4.5",
        [Cell.markdown "a9541506"
            (.pylist ["Hello world!\n", "============\n", "Print `Hello world!`:"]),
          Cell.markdown "b777420a"
            (.pystr "python\n                \x7bcell.source\x7d\n                ")]⟩ ∧
    (markdownize ⟨"4.5", [Cell.code "b" (.pylist ["foo"]) (.int 1)]⟩).cells.map Cell.source =
      (markdownize ⟨"4.5", [Cell.code "b" (.pylist ["bar"]) (.int 2)]⟩).cells.map Cell.source :=
  ⟨by decide, by decide⟩

/-- C9: `remove_markdown_cells` keeps exactly the code cells of the input
in their original relative order, preserves the version, leaves zero
markdown cells, and is idempotent. -/
theorem c9_remove_markdown_cells_correct (nb : Notebook) :
    (remove_markdown_cells nb).version = nb.version ∧
    (remove_markdown_cells nb).cells = nb.cells.filter Cell.isCode ∧
    (∀ c ∈ (remove_markdown_cells nb).cells, c.isMarkdown = false) ∧
    remove_markdown_cells (remove_markdown_cells nb) = remove_markdown_cells nb := by
  refine ⟨rfl, rfl, ?_, ?_⟩
  · intro c hc
    have h := List.of_mem_filter hc
    cases c with
    | code i s e => rfl
    | markdown i s => exact absurd h (by simp [Cell.isCode])
  · show Notebook.mk nb.version ((nb.cells.filter Cell.isCode).filter Cell.isCode) = _
    rw [List.filter_filter]
    simp only [Bool.and_self]
    rfl

/-- C10: `Outliner.outline` reproduces the section 4.4 layout bit-exactly
for the two-cell hello-world document at version 4.5 (source lines stored
in the notebook convention, every line but the cell's last carrying its
own trailing newline, as they are in samples/hello-world.ipynb). -/
theorem c10_outline_exact_layout :
    outline ⟨"4.5",
        [Cell.markdown "a9541506"
            (.pylist ["Hello world!\n", "============\n", "Print `Hello world!`:"]),
          Cell.code "b777420a" (.pylist ["print(\"Hello world!\")"]) (.int 1)]⟩ =
      some "Jupyter Notebook v4.5\n└─▶ Markdown cell #a9541506\n    ┌  Hello world!\n    │  ============\n    └  Print `Hello world!`:\n└─▶ Code cell #b777420a (1)\n    | print(\"Hello world!\")" := by
  decide

end Nb

namespace Nb

/-! ### Lemmas for the amended C3 (silent skipping of unrecognized lines) -/

theorem foldr_splitStep_no_newline (R : List (List Char)) :
    ∀ cs : List Char, '\n' ∉ cs → cs.foldr splitStep ([] :: R) = cs :: R := by
  intro cs h
  induction cs with
  | nil => rfl
  | cons c cs ih =>
    have hc : c ≠ '\n' := fun hh => h (hh ▸ List.mem_cons_self c cs)
    have hcs : '\n' ∉ cs := fun hh => h (List.mem_cons_of_mem _ hh)
    simp only [List.foldr_cons, ih hcs]
    simp [splitStep, hc]

theorem pySplit_prepend (g s : String) (h : '\n' ∉ g.data) :
    pySplitLines (g ++ "\n" ++ s) = g :: pySplitLines s := by
  unfold pySplitLines splitChars
  have hd : (g ++ "\n" ++ s).data = g.data ++ '\n' :: s.data := by
    rw [string_data_append, string_data_append, List.append_assoc]
    rfl
  rw [hd, List.foldr_append]
  have h1 : List.foldr splitStep [[]] ('\n' :: s.data) = [] :: s.data.foldr splitStep [[]] := by
    simp [splitStep]
  rw [h1, foldr_splitStep_no_newline _ _ h]
  rfl

theorem run_top_skip (g : String) (ls : List String)
    (hmd : g ≠ "# %% [markdown]") (hcode : g ≠ "# %%") :
    run .top (g :: ls) = run .top ls := by
  cases ls with
  | nil => rfl
  | cons l1 rest => simp only [run, if_neg hmd, if_neg hcode]

/-- C3 amended: a non-blank line that is neither header at a position
where a header is expected is silently skipped — parsing the input with
such a line prepended gives exactly the parse of the input without it,
and no error of any kind is raised for it (the loader has no FormatError
at all). -/
theorem c3_amended_silent_skip (g s v : String) (hnl : '\n' ∉ g.data)
    (_hnb : g ≠ "") (hmd : g ≠ "# %% [markdown]") (hcode : g ≠ "# %%") :
    pyPercentLoad (g ++ "\n" ++ s) v = pyPercentLoad s v := by
  unfold pyPercentLoad
  rw [pySplit_prepend g s hnl, run_top_skip g _ hmd hcode]

/-- Witness for the amended C3 at a concrete input. -/
theorem c3_amended_silent_skip_witness :
    ('\n' ∉ "hello".data ∧ "hello" ≠ "" ∧ "hello" ≠ "# %% [markdown]" ∧ "hello" ≠ "# %%") ∧
    pyPercentLoad ("hello" ++ "\n" ++ "# %%\nok\n") "4.5" = pyPercentLoad "# %%\nok\n" "4.5" :=
  ⟨⟨by decide, by decide, by decide, by decide⟩,
    c3_amended_silent_skip "hello" "# %%\nok\n" "4.5" (by decide) (by decide) (by decide)
      (by decide)⟩

end Nb

namespace Nb

/-! ### Lemmas for the amended C4 (trailing newline prevents the overrun) -/

theorem splitStep_ne_nil (c : Char) (acc : List (List Char)) : splitStep c acc ≠ [] := by
  unfold splitStep
  by_cases h : c = '\n'
  · simp [h]
  · rw [if_neg h]
    cases acc <;> simp

theorem foldr_splitStep_ne_nil (init : List (List Char)) (hi : init ≠ []) (cs : List Char) :
    cs.foldr splitStep init ≠ [] := by
  cases cs with
  | nil => exact hi
  | cons c cs => exact splitStep_ne_nil c _

theorem foldr_splitStep_snoc_empty (A : List (List Char)) (hA : A ≠ []) (cs : List Char) :
    cs.foldr splitStep (A ++ [[]]) = cs.foldr splitStep A ++ [[]] := by
  induction cs with
  | nil => rfl
  | cons c cs ih =>
    simp only [List.foldr_cons, ih]
    obtain ⟨h, t, hr⟩ : ∃ h t, cs.foldr splitStep A = h :: t := by
      cases hcs : cs.foldr splitStep A with
      | nil => exact absurd hcs (foldr_splitStep_ne_nil A hA cs)
      | cons h t => exact ⟨h, t, rfl⟩
    rw [hr, List.cons_append]
    unfold splitStep
    by_cases hc : c = '\n'
    · rw [if_pos hc, if_pos hc]
      rfl
    · rw [if_neg hc, if_neg hc]
      rfl

theorem pySplit_snoc_newline (s : String) :
    pySplitLines (s ++ "\n") = pySplitLines s ++ [""] := by
  unfold pySplitLines splitChars
  have hd : (s ++ "\n").data = s.data ++ ['\n'] := by
    rw [string_data_append]
  rw [hd, List.foldr_append]
  have h1 : List.foldr splitStep [[]] ['\n'] = ([[]] : List (List Char)) ++ [[]] := by
    simp [splitStep]
  rw [h1, foldr_splitStep_snoc_empty [[]] (by simp) s.data, List.map_append]
  rfl

theorem run_snoc_empty_isSome : ∀ (xs : List String) (m : Mode),
    (run m (xs ++ [""])).isSome = true := by
  intro xs
  induction xs with
  | nil =>
    intro m
    cases m with
    | top => rfl
    | block isMd acc => rfl
  | cons x xs ih =>
    intro m
    cases m with
    | top =>
      obtain ⟨y, rest, hyr⟩ : ∃ y rest, xs ++ [""] = y :: rest := by
        cases xs with
        | nil => exact ⟨"", [], rfl⟩
        | cons a b => exact ⟨a, b ++ [""], rfl⟩
      rw [List.cons_append, hyr]
      rw [show run Mode.top (x :: y :: rest) =
            (if x = "# %% [markdown]" then run (Mode.block true []) (y :: rest)
             else if x = "# %%" then run (Mode.block false []) (y :: rest)
             else run Mode.top (y :: rest)) from rfl]
      rw [← hyr]
      by_cases h1 : x = "# %% [markdown]"
      · rw [if_pos h1]
        exact ih _
      · rw [if_neg h1]
        by_cases h2 : x = "# %%"
        · rw [if_pos h2]
          exact ih _
        · rw [if_neg h2]
          exact ih _
    | block isMd acc =>
      rw [List.cons_append]
      by_cases hx : x = ""
      · subst hx
        simp only [run, if_pos rfl]
        obtain ⟨w, hw⟩ := Option.isSome_iff_exists.mp (ih Mode.top)
        rw [hw]
        rfl
      · simp only [run, if_neg hx]
        exact ih _

/-- C4 amended: for every input that ends with a trailing newline the
percent parse terminates normally — the final split line is empty, so an
open block is always closed before the lookahead can run past the end,
and no out-of-bounds access occurs.  (Without a trailing newline an open
block at the last line makes the loader read `lines[i+1]` out of range:
that is the corrected part, shown by the counterexample.) -/
theorem c4_amended_trailing_newline (s v : String) :
    (pyPercentLoad (s ++ "\n") v).isSome = true := by
  unfold pyPercentLoad
  rw [pySplit_snoc_newline]
  obtain ⟨w, hw⟩ := Option.isSome_iff_exists.mp (run_snoc_empty_isSome (pySplitLines s) Mode.top)
  rw [hw]
  rfl

end Nb

namespace Nb

/-! ### Lemmas for the amended C5 (serialization layout under the
retained-terminator line convention) -/

theorem string_data_empty : ("" : String).data = [] := rfl

theorem encodeLines_ne_nil {l : List String} (h : l ≠ []) : encodeLines l ≠ [] := by
  cases l with
  | nil => exact absurd rfl h
  | cons x xs => cases xs <;> simp [encodeLines]

theorem md_join : ∀ l : List String, l ≠ [] →
    "# " ++ pyJoin "# " (encodeLines l) = pyJoin "\n" (l.map (fun s => "# " ++ s)) := by
  intro l
  induction l with
  | nil => intro h; exact absurd rfl h
  | cons x xs ih =>
    intro _
    cases xs with
    | nil => rfl
    | cons y rest =>
      obtain ⟨e, es, he⟩ : ∃ e es, encodeLines (y :: rest) = e :: es := by
        cases hE : encodeLines (y :: rest) with
        | nil => exact absurd hE (encodeLines_ne_nil (by simp))
        | cons e es => exact ⟨e, es, rfl⟩
      have ihy := ih (by simp)
      rw [show encodeLines (x :: y :: rest) = (x ++ "\n") :: encodeLines (y :: rest) from rfl]
      rw [he]
      rw [show pyJoin "# " ((x ++ "\n") :: e :: es) =
            x ++ "\n" ++ "# " ++ pyJoin "# " (e :: es) from rfl]
      rw [show (x :: y :: rest).map (fun s => "# " ++ s) =
            ("# " ++ x) :: ("# " ++ y) :: rest.map (fun s => "# " ++ s) from rfl]
      rw [show pyJoin "\n" (("# " ++ x) :: ("# " ++ y) :: rest.map (fun s => "# " ++ s)) =
            ("# " ++ x) ++ "\n" ++ pyJoin "\n" (("# " ++ y) :: rest.map (fun s => "# " ++ s)) from
          rfl]
      rw [show ("# " ++ y) :: rest.map (fun s => "# " ++ s) =
            (y :: rest).map (fun s => "# " ++ s) from rfl]
      rw [← ihy, he]
      apply string_eq_of_data
      simp only [string_data_append, List.append_assoc]

theorem code_join : ∀ l : List String, l ≠ [] →
    pyJoin "" (encodeLines l) = pyJoin "\n" l := by
  intro l
  induction l with
  | nil => intro h; exact absurd rfl h
  | cons x xs ih =>
    intro _
    cases xs with
    | nil => rfl
    | cons y rest =>
      obtain ⟨e, es, he⟩ : ∃ e es, encodeLines (y :: rest) = e :: es := by
        cases hE : encodeLines (y :: rest) with
        | nil => exact absurd hE (encodeLines_ne_nil (by simp))
        | cons e es => exact ⟨e, es, rfl⟩
      have ihy := ih (by simp)
      rw [show encodeLines (x :: y :: rest) = (x ++ "\n") :: encodeLines (y :: rest) from rfl]
      rw [he]
      rw [show pyJoin "" ((x ++ "\n") :: e :: es) =
            x ++ "\n" ++ "" ++ pyJoin "" (e :: es) from rfl]
      rw [show pyJoin "\n" (x :: y :: rest) = x ++ "\n" ++ pyJoin "\n" (y :: rest) from rfl]
      rw [← ihy, he]
      apply string_eq_of_data
      simp only [string_data_append, string_data_empty, List.append_nil, List.nil_append,
        List.append_assoc]

theorem cellBlock_encode (c : Cell) (h : srcOkB c = true) :
    cellBlock (encodeCell c) = pyJoin "\n" (specBlockLines c) ++ "\n" := by
  cases c with
  | code i src e =>
    cases src with
    | pystr s => exact absurd h (by simp [srcOkB, Cell.source])
    | pylist l =>
      cases l with
      | nil => exact absurd h (by simp [srcOkB, Cell.source])
      | cons a l' =>
        rw [show cellBlock (encodeCell (Cell.code i (.pylist (a :: l')) e)) =
              "# %%\n" ++ pyJoin "" (encodeLines (a :: l')) ++ "\n" from rfl]
        rw [code_join (a :: l') (by simp)]
        rw [show specBlockLines (Cell.code i (.pylist (a :: l')) e) = "# %%" :: a :: l' from rfl]
        rw [show pyJoin "\n" ("# %%" :: a :: l') = "# %%" ++ "\n" ++ pyJoin "\n" (a :: l') from
            rfl]
        apply string_eq_of_data
        simp only [string_data_append, List.append_assoc]
        rfl
  | markdown i src =>
    cases src with
    | pystr s => exact absurd h (by simp [srcOkB, Cell.source])
    | pylist l =>
      cases l with
      | nil => exact absurd h (by simp [srcOkB, Cell.source])
      | cons a l' =>
        rw [show cellBlock (encodeCell (Cell.markdown i (.pylist (a :: l')))) =
              "# %% [markdown]\n# " ++ pyJoin "# " (encodeLines (a :: l')) ++ "\n" from rfl]
        rw [show specBlockLines (Cell.markdown i (.pylist (a :: l'))) =
              "# %% [markdown]" :: (a :: l').map (fun s => "# " ++ s) from rfl]
        rw [show (a :: l').map (fun s => "# " ++ s) =
              ("# " ++ a) :: l'.map (fun s => "# " ++ s) from rfl]
        rw [show pyJoin "\n" ("# %% [markdown]" :: ("# " ++ a) :: l'.map (fun s => "# " ++ s)) =
              "# %% [markdown]" ++ "\n" ++
                pyJoin "\n" (("# " ++ a) :: l'.map (fun s => "# " ++ s)) from rfl]
        rw [show ("# " ++ a) :: l'.map (fun s => "# " ++ s) =
              (a :: l').map (fun s => "# " ++ s) from rfl]
        rw [← md_join (a :: l') (by simp)]
        apply string_eq_of_data
        simp only [string_data_append, List.append_assoc]
        rfl

/-- C5 amended: for every Document with at least one cell, all of whose
cells have non-empty list sources, the percent serialization of the
document whose sources are stored in the retained-terminator convention
(every source line except the cell's last carries its own trailing
newline — the convention of the notebook JSON loader) is exactly the
layout the claim describes, `specRender`: per cell, the header line, then
each terminator-free source line on its own line (markdown lines
`# `-prefixed, code lines unprefixed), one blank line between consecutive
blocks, no blank line before the first header and none after the last
cell's content. -/
theorem c5_amended_layout (v : String) : ∀ cells : List Cell, cells ≠ [] →
    (∀ c ∈ cells, srcOkB c = true) →
    to_py_percent ⟨v, cells.map encodeCell⟩ = specRender ⟨v, cells⟩ := by
  intro cells
  induction cells with
  | nil => intro h; exact absurd rfl h
  | cons c rest ih =>
    intro _ hok
    have hc : srcOkB c = true := hok c (List.mem_cons_self c rest)
    cases rest with
    | nil =>
      show cellBlock (encodeCell c) ++ "" = specRender ⟨v, [c]⟩
      rw [string_append_empty, cellBlock_encode c hc]
      rfl
    | cons r rs =>
      have hr : ∀ x ∈ r :: rs, srcOkB x = true := fun x hx => hok x (List.mem_cons_of_mem _ hx)
      have ihr := ih (by simp) hr
      show cellBlock (encodeCell c) ++
          joinAll (((r :: rs).map encodeCell).map (fun x => "\n" ++ cellBlock x)) = _
      rw [show ((r :: rs).map encodeCell).map (fun x => "\n" ++ cellBlock x) =
            ("\n" ++ cellBlock (encodeCell r)) ::
              (rs.map encodeCell).map (fun x => "\n" ++ cellBlock x) from rfl]
      rw [show joinAll (("\n" ++ cellBlock (encodeCell r)) ::
              (rs.map encodeCell).map (fun x => "\n" ++ cellBlock x)) =
            ("\n" ++ cellBlock (encodeCell r)) ++
              joinAll ((rs.map encodeCell).map (fun x => "\n" ++ cellBlock x)) from rfl]
      rw [string_append_assoc "\n" (cellBlock (encodeCell r))
            (joinAll ((rs.map encodeCell).map (fun x => "\n" ++ cellBlock x)))]
      rw [show cellBlock (encodeCell r) ++
              joinAll ((rs.map encodeCell).map (fun x => "\n" ++ cellBlock x)) =
            to_py_percent ⟨v, (r :: rs).map encodeCell⟩ from rfl]
      rw [ihr, cellBlock_encode c hc]
      rw [show specRender ⟨v, r :: rs⟩ =
            pyJoin "\n\n" ((r :: rs).map (fun x => pyJoin "\n" (specBlockLines x))) ++ "\n" from
          rfl]
      rw [show specRender ⟨v, c :: r :: rs⟩ =
            pyJoin "\n" (specBlockLines c) ++ "\n\n" ++
              pyJoin "\n\n" ((r :: rs).map (fun x => pyJoin "\n" (specBlockLines x))) ++ "\n" from
          rfl]
      apply string_eq_of_data
      simp only [string_data_append, List.append_assoc]
      rfl

/-- Witness for the amended C5 at a concrete two-cell document. -/
theorem c5_amended_layout_witness :
    (([Cell.markdown "a" (.pylist ["x", "y"]), Cell.code "b" (.pylist ["z"]) (.int 1)] :
        List Cell) ≠ [] ∧
      ∀ c ∈ ([Cell.markdown "a" (.pylist ["x", "y"]),
          Cell.code "b" (.pylist ["z"]) (.int 1)] : List Cell), srcOkB c = true) ∧
    to_py_percent ⟨"4.5",
        ([Cell.markdown "a" (.pylist ["x", "y"]),
          Cell.code "b" (.pylist ["z"]) (.int 1)] : List Cell).map encodeCell⟩ =
      specRender ⟨"4.5",
        [Cell.markdown "a" (.pylist ["x", "y"]), Cell.code "b" (.pylist ["z"]) (.int 1)]⟩ :=
  ⟨⟨by decide, by decide⟩, c5_amended_layout "4.5" _ (by decide) (by decide)⟩

end Nb
